import Mathlib

/-
Verification of the DataChannel wrapper (src/src/webrtc/datachannel.ts).

The embedding models JavaScript runtime values loosely typed (a field may
hold a string, an ArrayBuffer, undefined, or some other value), strings as
lists of UTF-16 code units, and ArrayBuffers as lists of bytes.  The
stateful parts of the class (the outbound Handler.Queue, the two lifecycle
promises, the congestion-control poll loop) are modelled as an explicit
state record with a deterministic step function over environment events.
-/

set_option autoImplicit false

namespace WebRtc

/-- Source line 17: messages are limited to 16KB by SCTP; 15k used for safety. -/
def CHUNK_SIZE : Nat := 1024 * 15

/-- Source line 25: maximum bytes allowed to queue up inside the peer connection. -/
def PC_QUEUE_LIMIT : Nat := 1024 * 250

/-- Source line 28: JavaScript cannot represent integers above 2^53. -/
def MAX_MESSAGE_SIZE : Nat := 2 ^ 53

/-- A JavaScript runtime value as far as the DataChannel code inspects one:
`undefined`, a string (list of UTF-16 code units), an ArrayBuffer (list of
bytes), or any other value (carrying only its truthiness). -/
inductive JSVal where
  | undef
  | str (s : List Nat)
  | buf (b : List Nat)
  | other (truthy : Bool)
deriving DecidableEq

/-- The runtime test `typeof v === ` followed by `string`. -/
def JSVal.isString : JSVal → Bool
  | .str _ => true
  | _ => false

/-- The runtime test `v instanceof ArrayBuffer` (which also implies
`typeof v === ` followed by `object`). -/
def JSVal.isArrayBuffer : JSVal → Bool
  | .buf _ => true
  | _ => false

/-- JavaScript truthiness: `undefined` is falsy, a string is truthy iff
nonempty, an ArrayBuffer (object) is always truthy. -/
def JSVal.truthy : JSVal → Bool
  | .undef => false
  | .str s => !s.isEmpty
  | .buf _ => true
  | .other t => t

/-- Extract the code units of a string value (only used under `isString`). -/
def JSVal.getStr : JSVal → List Nat
  | .str s => s
  | _ => []

/-- Extract the bytes of an ArrayBuffer value (only used under
`isArrayBuffer` or truthiness established by the surrounding guard). -/
def JSVal.getBuf : JSVal → List Nat
  | .buf b => b
  | _ => []

/-- Source lines 32-41: the `Data` interface, with optional `str` and
`buffer` fields.  An absent field is `JSVal.undef`. -/
structure Data where
  str : JSVal
  buffer : JSVal
deriving DecidableEq

/-- Modelled from the spec: `ArrayBuffers.chunk` is declared in
`src/arraybuffers/arraybuffers.d.ts` but its implementation is not under
`src/`.  Per spec section 4.2 it splits a binary payload into an ordered
sequence of fixed-size pieces, the last piece possibly shorter. -/
def ArrayBuffers.chunk (size : Nat) : List Nat → List (List Nat)
  | [] => []
  | x :: rest => (x :: rest).take size :: ArrayBuffers.chunk size (rest.drop (size - 1))
termination_by xs => xs.length
decreasing_by simp; omega

/-- The two synchronous rejection cases of `send` (source lines 158-168 and
178-182). -/
inductive SendError where
  | malformedData
  | tooBig
deriving DecidableEq

/-- Source lines 170-176: the byte length computed by `send`.  JS strings
are UTF-16, so a text payload counts twice its code-unit length; a binary
payload counts its raw byte length.  (If neither branch fires the JS
variable stays `undefined`; that case is unreachable under the guard at
lines 158-160, and `undefined > MAX_MESSAGE_SIZE` is false in JS, matching
the 0 returned here.) -/
def computedByteLength (d : Data) : Nat :=
  if d.str.isString then 2 * d.str.getStr.length
  else if d.buffer.truthy then d.buffer.getBuf.length
  else 0

/-- Source lines 154-189 with lines 193-195 and 197-206 inlined: `send`
validates the payload, checks the size ceiling, then either enqueues the
text as a single unit (`chunkStringOntoQueue_` enqueues the object
containing only the `str` field) or enqueues the buffer's chunks in order
(`chunkBufferOntoQueue_`).  The result is the synchronous error, or the
list of entries handed to `toPeerDataQueue_` in order. -/
def send (d : Data) : Except SendError (List Data) :=
  if !(d.str.isString || d.buffer.isArrayBuffer) then
    .error .malformedData
  else if computedByteLength d > MAX_MESSAGE_SIZE then
    .error .tooBig
  else if d.str.isString then
    .ok [⟨d.str, .undef⟩]
  else if d.buffer.truthy then
    .ok ((ArrayBuffers.chunk CHUNK_SIZE d.buffer.getBuf).map (fun c => ⟨.undef, .buf c⟩))
  else
    .ok []

/-- Source lines 137-145: `onDataFromPeer_` classifies an inbound transport
message by runtime shape and wraps it as a `Data`; an unrecognized shape is
dropped with a logged diagnostic (`none`). -/
structure RTCMessage where
  text : JSVal
  buffer : JSVal
deriving DecidableEq

def onDataFromPeer_ (m : RTCMessage) : Option Data :=
  if m.text.isString then some ⟨m.text, .undef⟩
  else if m.buffer.isArrayBuffer then some ⟨.undef, m.buffer⟩
  else none

/-- A call to one of the transport's two synchronous send primitives
(source lines 212 and 214). -/
inductive TransportCall where
  | sendText (s : List Nat)
  | sendBuffer (b : List Nat)
deriving DecidableEq

/-- Source lines 211-215: the text-vs-binary dispatch inside
`handleSendDataToPeer_`; `none` is the bad-data branch at lines 215-220. -/
def drainDispatch (d : Data) : Option TransportCall :=
  if d.str.isString then some (.sendText d.str.getStr)
  else if d.buffer.truthy then some (.sendBuffer d.buffer.getBuf)
  else none

/-- The error a transport send primitive can raise synchronously, e.g. a
NetworkError when the channel died (source comment line 221). -/
inductive JSError where
  | networkError
deriving DecidableEq

/-- The settled state of the completion promise a drain step returns. -/
inductive Completion where
  | resolved
  | rejectedBadData
  | rejectedSendError
deriving DecidableEq

/-- The transport's synchronous send primitive, abstracted by whether this
particular call throws. -/
def rtcPrimitiveCall (throws : Bool) : Except JSError Unit :=
  if throws then .error .networkError else .ok ()

/-- Source lines 209-229: `handleSendDataToPeer_`.  The outer `Except`
layer is the possibility of an exception escaping the drain step; the
`try`/`catch` in the source converts the primitive's exception into a
rejected completion, so the function always returns `.ok`.  The `Bool`
records whether `conjestionControlSendHandler` was invoked afterwards
(line 227), which happens only on the fall-through success path. -/
def handleSendDataToPeer_ (throws : Bool) (d : Data) :
    Except JSError (Completion × Bool) :=
  match drainDispatch d with
  | none => .ok (.rejectedBadData, false)
  | some _ =>
    match rtcPrimitiveCall throws with
    | .error _ => .ok (.rejectedSendError, false)
    | .ok _ => .ok (.resolved, true)

/-- Source lines 234-247: the decision made by `conjestionControlSendHandler`
once `getBufferedAmount` has delivered a sample.  Returns the resulting
handler-installed flag of `toPeerDataQueue_` and the delay of the retry
poll scheduled via `setTimeout`, if any. -/
def conjestionControlSendHandler (bufferedAmount : Nat) (_isHandling : Bool) :
    Bool × Option Nat :=
  if bufferedAmount + CHUNK_SIZE > PC_QUEUE_LIMIT then
    (false, some 20)
  else
    (true, none)

/-- The settled state of a one-shot JS promise. -/
inductive PromiseState where
  | pending
  | resolved
  | rejected
deriving DecidableEq

/-- Modelled from the spec: `Handler.Queue` is declared in
`src/handler/queue.d.ts` but its implementation is not under `src/`.  Per
spec sections 4.3 and 9 it is a FIFO deque plus a consumption-enabled flag:
`handle` passes the item straight to the handler when one is set and
enqueues it otherwise; `setHandler` installs the handler and drains the
queued items through it in order; `stopHandling` clears the handler,
leaving queued items in place; `isHandling` reports whether a handler is
installed. -/
structure HandlerQueue where
  queue : List Data
  handling : Bool
deriving DecidableEq

/-- The drained items' transport calls, in order (each drained chunk is
dispatched by `handleSendDataToPeer_`; all chunks produced by `send` are
well formed, so the dispatch never takes the bad-data branch). -/
def drainCalls (ds : List Data) : List TransportCall :=
  ds.filterMap drainDispatch

/-- The observable state of one `DataChannel` object: the outbound
`toPeerDataQueue_`, the inbound `dataFromPeerQueue`, the
`opennedSuccessfully_` flag (initially `undefined`, i.e. falsy), the two
lifecycle promises, the ordered log of calls made to the transport's send
primitives, the number of outstanding congestion-poll callbacks
(`getBufferedAmount` continuations and `setTimeout` callbacks), and a
history flag recording whether the transport ever signalled open. -/
structure DCState where
  toPeerDataQueue : HandlerQueue
  dataFromPeerQueue : List Data
  opennedSuccessfully : Bool
  onceOpened : PromiseState
  onceClosed : PromiseState
  transportSendCalls : List TransportCall
  pendingPolls : Nat
  openedSeen : Bool
deriving DecidableEq

/-- Source lines 81-121: the state right after the constructor ran.  Both
queues are empty, no handler is installed on `toPeerDataQueue_`, both
promises are pending, and no congestion poll is outstanding. -/
def initState : DCState :=
  ⟨⟨[], false⟩, [], false, .pending, .pending, [], 0, false⟩

/-- The environment events a `DataChannel` reacts to: the transport
signalling open (either the initial ready state resolving as open or the
`onopen` event), the transport's `onclose` event, an application call to
`send`, the transport's `onmessage` event, and an outstanding congestion
poll callback delivering a `getBufferedAmount` sample. -/
inductive Event where
  | openEvt
  | closeEvt
  | sendCall (d : Data)
  | messageEvt (m : RTCMessage)
  | congestionPoll (bufferedAmount : Nat)
deriving DecidableEq

/-- One step of the `DataChannel` against an environment event, translated
from the constructor wiring (lines 85-120), `send` (lines 154-206),
`onDataFromPeer_` (lines 137-145) and `conjestionControlSendHandler`
(lines 234-247).  The transport is assumed not to throw here (the throwing
drain step is `handleSendDataToPeer_` above); each successful drain of a
chunk schedules one congestion poll. -/
def step (s : DCState) : Event → DCState
  | .openEvt =>
    -- resolving onceOpened is a no-op when it already settled; its then
    -- callback (lines 108-111) sets opennedSuccessfully_ and installs the
    -- handler, which drains any chunks already queued.
    if s.onceOpened = .pending then
      { s with
        onceOpened := .resolved,
        opennedSuccessfully := true,
        toPeerDataQueue := ⟨[], true⟩,
        transportSendCalls := s.transportSendCalls ++ drainCalls s.toPeerDataQueue.queue,
        pendingPolls := s.pendingPolls + (drainCalls s.toPeerDataQueue.queue).length,
        openedSeen := true }
    else
      { s with openedSeen := true }
  | .closeEvt =>
    -- lines 101-103 and 112-120: resolve onceClosed; its then callback
    -- rejects onceOpened when the channel never opened (a reject on a
    -- settled promise is a no-op) and clears opennedSuccessfully_.
    if s.onceClosed = .pending then
      { s with
        onceClosed := .resolved,
        onceOpened :=
          if s.opennedSuccessfully = false ∧ s.onceOpened = .pending then .rejected
          else s.onceOpened,
        opennedSuccessfully := false }
    else s
  | .sendCall d =>
    match send d with
    | .error _ => s
    | .ok chunks =>
      if s.toPeerDataQueue.handling then
        { s with
          transportSendCalls := s.transportSendCalls ++ drainCalls chunks,
          pendingPolls := s.pendingPolls + (drainCalls chunks).length }
      else
        { s with toPeerDataQueue := ⟨s.toPeerDataQueue.queue ++ chunks, false⟩ }
  | .messageEvt m =>
    match onDataFromPeer_ m with
    | some d => { s with dataFromPeerQueue := s.dataFromPeerQueue ++ [d] }
    | none => s
  | .congestionPoll b =>
    -- a poll callback can only run when one is outstanding.
    if s.pendingPolls = 0 then s
    else
      let dec := conjestionControlSendHandler b s.toPeerDataQueue.handling
      if dec.1 then
        -- below the limit: setHandler when not handling, draining the queue.
        if s.toPeerDataQueue.handling then
          { s with pendingPolls := s.pendingPolls - 1 }
        else
          { s with
            toPeerDataQueue := ⟨[], true⟩,
            transportSendCalls :=
              s.transportSendCalls ++ drainCalls s.toPeerDataQueue.queue,
            pendingPolls :=
              s.pendingPolls - 1 + (drainCalls s.toPeerDataQueue.queue).length }
      else
        -- above the limit: stopHandling and schedule a retry poll.
        { s with
          toPeerDataQueue := ⟨s.toPeerDataQueue.queue, false⟩,
          pendingPolls := s.pendingPolls - 1 + (if dec.2.isSome then 1 else 0) }

/-- Run a sequence of events from a state. -/
def run (s : DCState) (es : List Event) : DCState :=
  es.foldl step s

/-- Invariant tying outbound consumption to the open signal: a handler can
only be installed, and a congestion poll can only be outstanding, after the
transport has signalled open. -/
def OpenInv (s : DCState) : Prop :=
  (s.toPeerDataQueue.handling = true → s.openedSeen = true) ∧
  (0 < s.pendingPolls → s.openedSeen = true)

/-- Concatenating the chunks recovers the original buffer. -/
theorem ArrayBuffers.chunk_join (k : Nat) :
    ∀ (n : Nat) (xs : List Nat), xs.length ≤ n →
      (ArrayBuffers.chunk (k + 1) xs).flatten = xs := by
  intro n
  induction n with
  | zero =>
    intro xs h
    have hx : xs = [] := List.length_eq_zero.mp (Nat.le_zero.mp h)
    subst hx
    simp [ArrayBuffers.chunk]
  | succ n ih =>
    intro xs h
    match xs with
    | [] => simp [ArrayBuffers.chunk]
    | x :: rest =>
      rw [ArrayBuffers.chunk]
      have hlen : (rest.drop ((k + 1) - 1)).length ≤ n := by
        simp only [List.length_drop]
        simp only [List.length_cons] at h
        omega
      rw [List.flatten_cons, ih _ hlen]
      simp only [Nat.add_sub_cancel]
      rw [List.take_succ_cons, List.cons_append, List.take_append_drop]

/-- The number of chunks is the ceiling of the length divided by the
chunk size. -/
theorem ArrayBuffers.chunk_length (k : Nat) :
    ∀ (n : Nat) (xs : List Nat), xs.length ≤ n →
      (ArrayBuffers.chunk (k + 1) xs).length = (xs.length + k) / (k + 1) := by
  intro n
  induction n with
  | zero =>
    intro xs h
    have hx : xs = [] := List.length_eq_zero.mp (Nat.le_zero.mp h)
    subst hx
    simp [ArrayBuffers.chunk, Nat.div_eq_of_lt (Nat.lt_succ_self k)]
  | succ n ih =>
    intro xs h
    match xs with
    | [] => simp [ArrayBuffers.chunk, Nat.div_eq_of_lt (Nat.lt_succ_self k)]
    | x :: rest =>
      rw [ArrayBuffers.chunk]
      have hlen : (rest.drop ((k + 1) - 1)).length ≤ n := by
        simp only [List.length_drop]
        simp only [List.length_cons] at h
        omega
      rw [List.length_cons, ih _ hlen]
      simp only [Nat.add_sub_cancel, List.length_drop, List.length_cons]
      rcases le_or_lt k rest.length with hk | hk
      · have h1 : rest.length - k + k = rest.length := Nat.sub_add_cancel hk
        have h2 : rest.length + 1 + k = rest.length + (k + 1) := by omega
        rw [h1, h2, Nat.add_div_right _ (Nat.succ_pos k)]
      · have h1 : rest.length - k = 0 := Nat.sub_eq_zero_of_le (Nat.le_of_lt hk)
        have h2 : (0 + k) / (k + 1) = 0 := Nat.div_eq_of_lt (by omega)
        have h3 : (rest.length + 1 + k) / (k + 1) = 1 :=
          Nat.div_eq_of_lt_le (by omega) (by omega)
        rw [h1, h2, h3]

/-- Every chunk is at most the chunk size. -/
theorem ArrayBuffers.chunk_mem_le (k : Nat) :
    ∀ (n : Nat) (xs : List Nat), xs.length ≤ n →
      ∀ c ∈ ArrayBuffers.chunk (k + 1) xs, c.length ≤ k + 1 := by
  intro n
  induction n with
  | zero =>
    intro xs h
    have hx : xs = [] := List.length_eq_zero.mp (Nat.le_zero.mp h)
    subst hx
    simp [ArrayBuffers.chunk]
  | succ n ih =>
    intro xs h
    match xs with
    | [] => simp [ArrayBuffers.chunk]
    | x :: rest =>
      rw [ArrayBuffers.chunk]
      intro c hc
      rcases List.mem_cons.mp hc with hc | hc
      · subst hc
        simp [List.length_take]
      · have hlen : (rest.drop ((k + 1) - 1)).length ≤ n := by
          simp only [List.length_drop]
          simp only [List.length_cons] at h
          omega
        exact ih _ hlen c hc

theorem run_nil (s : DCState) : run s [] = s := rfl

theorem run_cons (s : DCState) (e : Event) (t : List Event) :
    run s (e :: t) = run (step s e) t := rfl

/-- C1: for every binary payload of byte length L (L within the JS-range
guard of `send`), `send` splits it into exactly the chunks produced by the
chunker: ceil(L / CHUNK_SIZE) of them with CHUNK_SIZE = 15*1024, each at
most CHUNK_SIZE bytes, and their concatenation in enqueue order is the
original payload. -/
theorem C1_send_binary_chunking (b : List Nat) (h : b.length ≤ MAX_MESSAGE_SIZE) :
    CHUNK_SIZE = 15 * 1024 ∧
    send ⟨.undef, .buf b⟩ =
      .ok ((ArrayBuffers.chunk CHUNK_SIZE b).map (fun c => ⟨.undef, .buf c⟩)) ∧
    (ArrayBuffers.chunk CHUNK_SIZE b).length = (b.length + (CHUNK_SIZE - 1)) / CHUNK_SIZE ∧
    (∀ c ∈ ArrayBuffers.chunk CHUNK_SIZE b, c.length ≤ CHUNK_SIZE) ∧
    (ArrayBuffers.chunk CHUNK_SIZE b).flatten = b := by
  have hc : CHUNK_SIZE = 15359 + 1 := rfl
  have hbl : computedByteLength ⟨.undef, .buf b⟩ = b.length := by
    simp [computedByteLength, JSVal.isString, JSVal.truthy, JSVal.getBuf]
  have hlt : ¬ (computedByteLength ⟨.undef, .buf b⟩ > MAX_MESSAGE_SIZE) := by
    rw [hbl]
    omega
  refine ⟨rfl, ?_, ?_, ?_, ?_⟩
  · simp [send, JSVal.isString, JSVal.isArrayBuffer, JSVal.truthy, JSVal.getBuf, hlt]
  · rw [hc]
    simpa using ArrayBuffers.chunk_length 15359 b.length b le_rfl
  · rw [hc]
    exact ArrayBuffers.chunk_mem_le 15359 b.length b le_rfl
  · rw [hc]
    exact ArrayBuffers.chunk_join 15359 b.length b le_rfl

theorem C1_send_binary_chunking_witness :
    (ArrayBuffers.chunk CHUNK_SIZE (List.replicate 40000 0)).length = 3 := by
  have h := (C1_send_binary_chunking (List.replicate 40000 0)
    (by rw [List.length_replicate]; decide)).2.2.1
  rw [h, List.length_replicate]
  decide

/-- C5: a payload that is neither a well-formed text payload nor a
well-formed binary payload, or whose computed byte length exceeds
MAX_MESSAGE_SIZE = 2^53, makes `send` return a rejected completion
synchronously, and the corresponding step leaves the entire channel state
(in particular the outbound queue) unchanged. -/
theorem C5_invalid_send_rejects (d : Data) (s : DCState)
    (h : (d.str.isString = false ∧ d.buffer.isArrayBuffer = false) ∨
         MAX_MESSAGE_SIZE < computedByteLength d) :
    (∃ e, send d = .error e) ∧ step s (.sendCall d) = s := by
  have hsend : ∃ e, send d = .error e := by
    rcases h with ⟨h1, h2⟩ | h
    · exact ⟨.malformedData, by simp [send, h1, h2]⟩
    · by_cases hg : (d.str.isString || d.buffer.isArrayBuffer) = true
      · refine ⟨.tooBig, ?_⟩
        simp [send, hg, h]
      · exact ⟨.malformedData, by simp [send, hg]⟩
  obtain ⟨e, he⟩ := hsend
  refine ⟨⟨e, he⟩, ?_⟩
  simp [step, he]

theorem C5_invalid_send_rejects_witness :
    (∃ e, send ⟨.undef, .undef⟩ = .error e) ∧
    step initState (.sendCall ⟨.undef, .undef⟩) = initState :=
  C5_invalid_send_rejects ⟨.undef, .undef⟩ initState (Or.inl (by decide))

/-- C8: for every text payload, `send` computes the byte length as twice
the code-unit length, and (within the size guard) enqueues the text onto
the outbound queue as a single unit, without any sub-chunking. -/
theorem C8_text_single_unit (s : List Nat) (h : 2 * s.length ≤ MAX_MESSAGE_SIZE) :
    computedByteLength ⟨.str s, .undef⟩ = 2 * s.length ∧
    send ⟨.str s, .undef⟩ = .ok [⟨.str s, .undef⟩] := by
  have hb : computedByteLength ⟨.str s, .undef⟩ = 2 * s.length := by
    simp [computedByteLength, JSVal.isString, JSVal.getStr]
  refine ⟨hb, ?_⟩
  have hlt : ¬ (computedByteLength ⟨.str s, .undef⟩ > MAX_MESSAGE_SIZE) := by
    rw [hb]
    omega
  simp [send, JSVal.isString, hlt]

theorem C8_text_single_unit_witness :
    computedByteLength ⟨.str [104, 105], .undef⟩ = 2 * 2 ∧
    send ⟨.str [104, 105], .undef⟩ = .ok [⟨.str [104, 105], .undef⟩] :=
  C8_text_single_unit [104, 105] (by decide)

/-- C10: a payload carrying both a string `str` and an ArrayBuffer
`buffer` is processed entirely through the text path: the byte length is
computed from the string, the text alone is enqueued as a single unit (the
buffer is silently dropped), and the drain step's dispatch likewise picks
the text primitive. -/
theorem C10_both_fields_text_precedence (s b : List Nat)
    (h : 2 * s.length ≤ MAX_MESSAGE_SIZE) :
    send ⟨.str s, .buf b⟩ = .ok [⟨.str s, .undef⟩] ∧
    computedByteLength ⟨.str s, .buf b⟩ = 2 * s.length ∧
    drainDispatch ⟨.str s, .buf b⟩ = some (.sendText s) := by
  have hb : computedByteLength ⟨.str s, .buf b⟩ = 2 * s.length := by
    simp [computedByteLength, JSVal.isString, JSVal.getStr]
  have hlt : ¬ (computedByteLength ⟨.str s, .buf b⟩ > MAX_MESSAGE_SIZE) := by
    rw [hb]
    omega
  refine ⟨?_, hb, ?_⟩
  · simp [send, JSVal.isString, hlt]
  · simp [drainDispatch, JSVal.isString, JSVal.getStr]

theorem C10_both_fields_text_precedence_witness :
    send ⟨.str [104], .buf [1, 2]⟩ = .ok [⟨.str [104], .undef⟩] ∧
    computedByteLength ⟨.str [104], .buf [1, 2]⟩ = 2 * 1 ∧
    drainDispatch ⟨.str [104], .buf [1, 2]⟩ = some (.sendText [104]) :=
  C10_both_fields_text_precedence [104] [1, 2] (by decide)

/-- C7: when the transport's synchronous send primitive throws during a
drain step for a chunk that reaches a primitive, the exception is caught
and that chunk's completion future is rejected with a delivery error
(`rejectedSendError`), and no exception escapes any drain step (the result
is always `.ok`, for every payload and every transport behaviour). -/
theorem C7_drain_step_catches (d : Data) (c : TransportCall)
    (h : drainDispatch d = some c) :
    handleSendDataToPeer_ true d = .ok (.rejectedSendError, false) ∧
    ∀ (d2 : Data) (throws : Bool), (handleSendDataToPeer_ throws d2).isOk = true := by
  constructor
  · simp [handleSendDataToPeer_, h, rtcPrimitiveCall]
  · intro d2 throws
    unfold handleSendDataToPeer_
    cases drainDispatch d2 <;> cases throws <;>
      simp [rtcPrimitiveCall, Except.isOk, Except.toBool]

theorem C7_drain_step_catches_witness :
    handleSendDataToPeer_ true ⟨.str [104], .undef⟩ = .ok (.rejectedSendError, false) ∧
    ∀ (d2 : Data) (throws : Bool), (handleSendDataToPeer_ throws d2).isOk = true :=
  C7_drain_step_catches ⟨.str [104], .undef⟩ (.sendText [104]) (by decide)

/-- C2: at any point where the congestion controller has an outstanding
poll and receives a buffered-amount sample: if the sample plus CHUNK_SIZE
exceeds PC_QUEUE_LIMIT, consumption ends up suspended and a retry poll is
scheduled after a fixed 20 ms delay (so a poll remains outstanding); once
a sample shows the sum within the limit, consumption is resumed at that
very poll, i.e. within one polling interval. -/
theorem C2_congestion_gate (s : DCState) (b : Nat) (hp : 0 < s.pendingPolls) :
    (PC_QUEUE_LIMIT < b + CHUNK_SIZE →
      conjestionControlSendHandler b s.toPeerDataQueue.handling = (false, some 20) ∧
      (step s (.congestionPoll b)).toPeerDataQueue.handling = false ∧
      0 < (step s (.congestionPoll b)).pendingPolls) ∧
    (b + CHUNK_SIZE ≤ PC_QUEUE_LIMIT →
      (step s (.congestionPoll b)).toPeerDataQueue.handling = true) := by
  have h0 : ¬ (s.pendingPolls = 0) := by omega
  constructor
  · intro h
    have hd : conjestionControlSendHandler b s.toPeerDataQueue.handling
        = (false, some 20) := by
      simp [conjestionControlSendHandler, h]
    refine ⟨hd, ?_, ?_⟩ <;> simp [step, h0, hd]
  · intro h
    have hd : ∀ hb : Bool, conjestionControlSendHandler b hb = (true, none) := by
      intro hb
      simp [conjestionControlSendHandler]
      omega
    by_cases hh : s.toPeerDataQueue.handling <;> simp [step, h0, hd, hh]

theorem C2_congestion_gate_witness :
    (step ⟨⟨[], true⟩, [], true, .resolved, .pending, [], 1, true⟩
      (.congestionPoll 0)).toPeerDataQueue.handling = true :=
  (C2_congestion_gate ⟨⟨[], true⟩, [], true, .resolved, .pending, [], 1, true⟩ 0
    (by decide)).2 (by decide)

/-!
Helper lemmas about the step relation, shared by the temporal claims.
-/

theorem onceOpened_rejected_step (s : DCState) (e : Event)
    (h : s.onceOpened = .rejected) : (step s e).onceOpened = .rejected := by
  cases e with
  | openEvt => simp [step, h]
  | closeEvt =>
    simp only [step]
    split
    · simp [h]
    · exact h
  | sendCall d =>
    simp only [step]
    split
    · exact h
    · split <;> exact h
  | messageEvt m =>
    simp only [step]
    split <;> exact h
  | congestionPoll b =>
    simp only [step]
    split
    · exact h
    · split
      · split <;> exact h
      · exact h

theorem onceOpened_rejected_run (s : DCState) (t : List Event)
    (h : s.onceOpened = .rejected) : (run s t).onceOpened = .rejected := by
  induction t generalizing s with
  | nil => exact h
  | cons e t ih => exact ih (step s e) (onceOpened_rejected_step s e h)

theorem openInv_init : OpenInv initState := by
  constructor <;> intro h <;> simp [initState] at h

theorem openInv_step (s : DCState) (e : Event) (h : OpenInv s) :
    OpenInv (step s e) := by
  obtain ⟨hh, hpp⟩ := h
  cases e with
  | openEvt =>
    simp only [step]
    split <;> exact ⟨fun _ => rfl, fun _ => rfl⟩
  | closeEvt =>
    simp only [step]
    split
    · exact ⟨hh, hpp⟩
    · exact ⟨hh, hpp⟩
  | sendCall d =>
    simp only [step]
    split
    · exact ⟨hh, hpp⟩
    · split
      · next hcond =>
        exact ⟨fun _ => hh hcond, fun _ => hh hcond⟩
      · exact ⟨fun hx => by simp at hx, hpp⟩
  | messageEvt m =>
    simp only [step]
    split <;> exact ⟨hh, hpp⟩
  | congestionPoll b =>
    simp only [step]
    split
    · exact ⟨hh, hpp⟩
    · next hne =>
      have hseen : s.openedSeen = true := hpp (by omega)
      split
      · split <;> exact ⟨fun _ => hseen, fun _ => hseen⟩
      · exact ⟨fun _ => hseen, fun _ => hseen⟩

theorem openInv_run (s : DCState) (t : List Event) (h : OpenInv s) :
    OpenInv (run s t) := by
  induction t generalizing s with
  | nil => exact h
  | cons e t ih => exact ih (step s e) (openInv_step s e h)

theorem openedSeen_step (s : DCState) (e : Event)
    (h : (step s e).openedSeen = true) :
    s.openedSeen = true ∨ e = .openEvt := by
  cases e with
  | openEvt => exact Or.inr rfl
  | closeEvt =>
    refine Or.inl ?_
    simp only [step] at h
    split at h <;> exact h
  | sendCall d =>
    refine Or.inl ?_
    simp only [step] at h
    split at h
    · exact h
    · split at h <;> exact h
  | messageEvt m =>
    refine Or.inl ?_
    simp only [step] at h
    split at h <;> exact h
  | congestionPoll b =>
    refine Or.inl ?_
    simp only [step] at h
    split at h
    · exact h
    · split at h
      · split at h <;> exact h
      · exact h

theorem openedSeen_run (t : List Event) :
    ∀ s : DCState, (run s t).openedSeen = true →
      s.openedSeen = true ∨ Event.openEvt ∈ t := by
  induction t with
  | nil => exact fun s h => Or.inl h
  | cons e t ih =>
    intro s h
    rw [run_cons] at h
    rcases ih (step s e) h with hs | hm
    · rcases openedSeen_step s e hs with hs' | he
      · exact Or.inl hs'
      · exact Or.inr (he ▸ List.mem_cons_self e t)
    · exact Or.inr (List.mem_cons_of_mem e hm)

/-- C6: at construction the outbound queue has no handler installed
(consumption suspended), and in any sequence of events the handler can be
installed only if the transport has signalled open at some earlier point. -/
theorem C6_consumption_starts_after_open :
    initState.toPeerDataQueue.handling = false ∧
    ∀ t : List Event, (run initState t).toPeerDataQueue.handling = true →
      Event.openEvt ∈ t := by
  refine ⟨rfl, ?_⟩
  intro t h
  have hinv : OpenInv (run initState t) := openInv_run initState t openInv_init
  have hseen : (run initState t).openedSeen = true := hinv.1 h
  rcases openedSeen_run t initState hseen with hs | hm
  · simp [initState] at hs
  · exact hm

theorem C6_consumption_starts_after_open_witness :
    Event.openEvt ∈ [Event.openEvt] :=
  C6_consumption_starts_after_open.2 [Event.openEvt] (by decide)

/-- C3 counterexample: the claim that no step after the close event hands
a queued chunk to the transport's send primitive is false.  Concretely:
after the channel opens and then closes (onceClosed resolved, no transport
send made so far), a subsequent `send` of a small text payload still hands
the chunk to the transport's send primitive, because the close handler
(source lines 112-120) never uninstalls the queue handler. -/
theorem C3_counterexample :
    (run initState [.openEvt, .closeEvt]).onceClosed = .resolved ∧
    (run initState [.openEvt, .closeEvt]).transportSendCalls = [] ∧
    (run initState [.openEvt, .closeEvt,
        .sendCall ⟨.str [104], .undef⟩]).transportSendCalls
      = [.sendText [104]] := by
  decide

/-- C3 amended: reaching Closed or FailedToOpen does not disable outbound
consumption.  The close event leaves the outbound queue — both its handler
installation and its queued contents — exactly as it was, so a handler
installed while Open stays installed and later chunks are still handed to
the transport.  (Only when the channel never opened is consumption never
active, which is the separate initial-suspension invariant.) -/
theorem C3_amended_close_keeps_consumption (s : DCState) :
    (step s .closeEvt).toPeerDataQueue = s.toPeerDataQueue := by
  simp only [step]
  split <;> rfl

/-- C4: if the transport fires close while the channel is still
Connecting (both promises pending, the opened flag still falsy), then
onceOpened is rejected and onceClosed is resolved, and onceOpened stays
rejected (is never resolved) under every later sequence of events. -/
theorem C4_close_while_connecting (s : DCState) (t : List Event)
    (h1 : s.onceOpened = .pending) (h2 : s.onceClosed = .pending)
    (h3 : s.opennedSuccessfully = false) :
    (step s .closeEvt).onceOpened = .rejected ∧
    (step s .closeEvt).onceClosed = .resolved ∧
    (run (step s .closeEvt) t).onceOpened = .rejected := by
  have hstep : (step s .closeEvt).onceOpened = .rejected ∧
      (step s .closeEvt).onceClosed = .resolved := by
    constructor <;> simp [step, h1, h2, h3]
  exact ⟨hstep.1, hstep.2, onceOpened_rejected_run _ t hstep.1⟩

theorem C4_close_while_connecting_witness :
    (step initState .closeEvt).onceOpened = .rejected ∧
    (step initState .closeEvt).onceClosed = .resolved ∧
    (run (step initState .closeEvt) [.openEvt]).onceOpened = .rejected :=
  C4_close_while_connecting initState [.openEvt] rfl rfl rfl

/-- C9: each inbound transport message is classified by runtime shape — a
string `text` field is pushed as a text payload, otherwise an ArrayBuffer
`buffer` field is pushed as a binary payload, otherwise the message is
dropped (with a logged diagnostic; the classifier is total, so no
exception propagates) — and a sequence of message events appends exactly
the recognized payloads to the inbound queue in arrival order. -/
theorem C9_inbound_classification :
    (∀ m : RTCMessage,
      (m.text.isString = true → onDataFromPeer_ m = some ⟨m.text, .undef⟩) ∧
      (m.text.isString = false → m.buffer.isArrayBuffer = true →
        onDataFromPeer_ m = some ⟨.undef, m.buffer⟩) ∧
      (m.text.isString = false → m.buffer.isArrayBuffer = false →
        onDataFromPeer_ m = none)) ∧
    (∀ (s : DCState) (ms : List RTCMessage),
      (run s (ms.map Event.messageEvt)).dataFromPeerQueue =
        s.dataFromPeerQueue ++ ms.filterMap onDataFromPeer_) := by
  constructor
  · intro m
    refine ⟨?_, ?_, ?_⟩
    · intro h1
      simp [onDataFromPeer_, h1]
    · intro h1 h2
      simp [onDataFromPeer_, h1, h2]
    · intro h1 h2
      simp [onDataFromPeer_, h1, h2]
  · intro s ms
    induction ms generalizing s with
    | nil => simp [run]
    | cons m t ih =>
      rw [List.map_cons, run_cons, ih (step s (.messageEvt m)),
        List.filterMap_cons]
      cases hm : onDataFromPeer_ m with
      | none => simp [step, hm]
      | some d => simp [step, hm]

theorem C9_inbound_classification_witness :
    onDataFromPeer_ ⟨.str [104], .undef⟩ = some ⟨.str [104], .undef⟩ :=
  (C9_inbound_classification.1 ⟨.str [104], .undef⟩).1 (by decide)

end WebRtc
